import Mathlib

/-!
Verification of the tradezen trade-reconciliation and statistics engine.

Shallow embedding conventions:
* JS `number` fields holding money, prices and units are modelled as `ℚ`
  (the source parses decimal text and compares with exact equality or
  relative tolerances; all claim-relevant arithmetic is exact on the
  decimal inputs involved).
* Timestamps are modelled as `Int` milliseconds since the epoch: the source
  stores times as strings but every comparison and arithmetic operation
  first converts through `new Date(s).getTime()`.  String round-tripping
  (`toISOString`, `replace('T',' ')`, appending `'Z'`) preserves the
  instant, so events carry their epoch value directly.
* JS `undefined`/`null` optional fields are `Option _`; JS truthiness on
  numbers (`x || d`) is modelled explicitly (`0`, `undefined` and `null`
  are falsy).
* `profitFactor` can be the JS value `Infinity`; it is modelled by the
  two-constructor type `PFValue`.
* The `sharpeRatio`, `sortinoRatio` and `sqn` outputs of `calculateStats`
  are ratios through `Math.sqrt` and are irrational in general; they are
  omitted from the embedded record (no claim mentions them).  The `notes`
  display string (float formatting via `toFixed`) is likewise omitted.
-/

set_option maxRecDepth 100000

/-- JS `a || b` on numbers: `a` when truthy (non-zero), else `b`. -/
def jsOrQ (a b : ℚ) : ℚ := if a = 0 then b else a

/-- JS truthiness of an optional number: present and non-zero. -/
def truthyOpt (o : Option ℚ) : Bool := decide (o.getD 0 ≠ 0)

/-- JS truthiness of an optional string: present and non-empty. -/
def truthyStr (o : Option String) : Bool := decide (o.getD "" ≠ "")

/-- JS `a || b` where `a` is an optional number and the fallback is an
optional number (used for `lastMod.stopLoss || stopLoss`). -/
def jsOrOpt (a b : Option ℚ) : Option ℚ := if truthyOpt a then a else b

/-- Stable insertion sort: `e` is inserted before the first element `x`
with `lt e x`, so elements that compare equal keep their input order —
the embedding of JS `Array.prototype.sort` (stable) with a numeric
comparator. -/
def insertSorted (lt : α → α → Bool) (e : α) : List α → List α
  | [] => [e]
  | x :: xs => if lt e x then e :: x :: xs else x :: insertSorted lt e xs

def insertionSortBy (lt : α → α → Bool) (l : List α) : List α :=
  l.foldl (fun acc e => insertSorted lt e acc) []

theorem mem_insertSorted (lt : α → α → Bool) (e : α) (l : List α) (a : α) :
    a ∈ insertSorted lt e l ↔ a = e ∨ a ∈ l := by
  induction l with
  | nil => simp [insertSorted]
  | cons x xs ih =>
    simp only [insertSorted]
    split
    · simp
    · simp [ih]
      tauto

theorem mem_insertionSortBy (lt : α → α → Bool) (l : List α) (a : α) :
    a ∈ insertionSortBy lt l ↔ a ∈ l := by
  suffices h : ∀ acc : List α,
      a ∈ l.foldl (fun acc e => insertSorted lt e acc) acc ↔ a ∈ acc ∨ a ∈ l by
    simpa [insertionSortBy] using h []
  induction l with
  | nil => simp
  | cons x xs ih =>
    intro acc
    simp only [List.foldl_cons, ih, mem_insertSorted, List.mem_cons]
    tauto

/-! ## Currency Normalizer (src/unnamed/part_004, src/utils/currencyConversion.ts) -/

/-- A JS object mapping currency code to rate-per-USD. -/
def ExchangeRates := List (String × ℚ)

/-- Embeds `rates[c.toUpperCase()] || 1`: an absent code, or a stored rate of `0`
(falsy), defaults to rate `1`. -/
def lookupRate (rates : ExchangeRates) (c : String) : ℚ :=
  match List.lookup c.toUpper rates with
  | none => 1
  | some v => if v = 0 then 1 else v

/-- Hardcoded fallback table `currentExchangeRates` of part_004. -/
def currentExchangeRates : ExchangeRates :=
  [("USD", 1), ("EUR", 1.08), ("GBP", 1.27), ("JPY", 150.0), ("CHF", 0.88),
   ("CAD", 1.35), ("AUD", 1.53), ("NZD", 1.65), ("USDC", 1), ("USDT", 1),
   ("BTC", 65000), ("ETH", 3500), ("USC", 0.01)]

/-- The `convertCurrency` of src/unnamed/part_004: same-currency fast path,
zero-amount short-circuit, then through-USD conversion.  The source's
default `rates` argument is `currentExchangeRates`; call sites here pass
it explicitly. -/
def convertCurrency (amount : ℚ) (fromCurrency toCurrency : String)
    (rates : ExchangeRates) : ℚ :=
  if fromCurrency = toCurrency then amount
  else if amount = 0 then 0
  else amount / lookupRate rates fromCurrency * lookupRate rates toCurrency

/-- The `convertCurrency` of src/src/utils/currencyConversion.ts (identical
except it lacks the zero-amount short-circuit). -/
def convertCurrencyUtils (amount : ℚ) (fromCurrency toCurrency : String)
    (rates : ExchangeRates) : ℚ :=
  if fromCurrency = toCurrency then amount
  else amount / lookupRate rates fromCurrency * lookupRate rates toCurrency

/-! ## Data model (src/types/trade.ts plus the currency migration column) -/

inductive Direction | long | short
deriving DecidableEq, Repr

inductive TradeStatus | openT | closed | cancelled
deriving DecidableEq, Repr

/-- The central Trade entity (identity, owner, notes and display-only
fields omitted; no claim mentions them). -/
structure Trade where
  symbol : String
  direction : Direction
  entryPrice : ℚ
  exitPrice : Option ℚ
  units : ℚ
  entryTime : Int
  exitTime : Option Int
  stopLoss : Option ℚ
  takeProfit : Option ℚ
  pnl : Option ℚ
  pnlPercent : Option ℚ
  status : TradeStatus
  currency : Option String
  tags : List String
deriving DecidableEq, Repr

/-- JS number-or-Infinity, the codomain of `profitFactor`. -/
inductive PFValue
  | fin : ℚ → PFValue
  | inf
deriving DecidableEq, Repr

structure TradeStats where
  totalTrades : Nat
  winningTrades : Nat
  losingTrades : Nat
  winRate : ℚ
  totalPnl : ℚ
  averageWin : ℚ
  averageLoss : ℚ
  profitFactor : PFValue
  largestWin : ℚ
  largestLoss : ℚ
  averageRRR : ℚ
  consecutiveWins : Nat
  consecutiveLosses : Nat
  expectancy : ℚ
  averageHoldingTime : ℚ
  maxDrawdown : ℚ
  maxDrawdownPercent : ℚ
deriving DecidableEq, Repr

/-! ## Statistics Engine (src/unnamed/part_005, `calculateStats`) -/

/-- Embeds `trades.filter(t => t.status === 'closed' && t.pnl !== null)`. -/
def closedTradesOf (trades : List Trade) : List Trade :=
  trades.filter fun t => decide (t.status = .closed) && t.pnl.isSome

/-- Embeds `convertCurrency(t.pnl || 0, t.currency || 'USD', baseCurrency)`. -/
def getPnl (baseCurrency : String) (rates : ExchangeRates) (t : Trade) : ℚ :=
  convertCurrency (t.pnl.getD 0) (t.currency.getD "USD") baseCurrency rates

def winningOf (trades : List Trade) : List Trade :=
  (closedTradesOf trades).filter fun t => decide (0 < t.pnl.getD 0)

def losingOf (trades : List Trade) : List Trade :=
  (closedTradesOf trades).filter fun t => decide (t.pnl.getD 0 < 0)

/-- The `totalWins` sum: converted P&L summed over winning trades. -/
def grossWinSum (trades : List Trade) (baseCurrency : String)
    (rates : ExchangeRates) : ℚ :=
  ((winningOf trades).map (getPnl baseCurrency rates)).sum

/-- The `totalLosses` value: absolute value of the converted P&L sum over losing
trades. -/
def grossLossSum (trades : List Trade) (baseCurrency : String)
    (rates : ExchangeRates) : ℚ :=
  |((losingOf trades).map (getPnl baseCurrency rates)).sum|

/-- Embeds `Math.max(...)` over a list (callers guard non-emptiness). -/
def listMax : List ℚ → ℚ
  | [] => 0
  | x :: xs => xs.foldl max x

def listMin : List ℚ → ℚ
  | [] => 0
  | x :: xs => xs.foldl min x

/-- State of the single pass over exit-time-sorted trades computing
consecutive-run counters and the equity-curve drawdown. -/
structure WalkState where
  currentWins : Nat
  currentLosses : Nat
  maxConsecutiveWins : Nat
  maxConsecutiveLosses : Nat
  currentEquity : ℚ
  peakEquity : ℚ
  maxDrawdown : ℚ
  maxDrawdownPercent : ℚ
deriving Repr

def walkStep (pnl : ℚ) (s : WalkState) : WalkState :=
  let s1 :=
    if 0 < pnl then
      let cw := s.currentWins + 1
      { s with currentWins := cw, currentLosses := 0,
               maxConsecutiveWins := max s.maxConsecutiveWins cw }
    else
      let cl := s.currentLosses + 1
      { s with currentLosses := cl, currentWins := 0,
               maxConsecutiveLosses := max s.maxConsecutiveLosses cl }
  let equity := s1.currentEquity + pnl
  let peak := if s1.peakEquity < equity then equity else s1.peakEquity
  let drawdown := peak - equity
  let maxDd := if s1.maxDrawdown < drawdown then drawdown else s1.maxDrawdown
  let maxDdPct :=
    if 0 < peak then
      let ddPct := drawdown / peak * 100
      if s1.maxDrawdownPercent < ddPct then ddPct else s1.maxDrawdownPercent
    else s1.maxDrawdownPercent
  { s1 with currentEquity := equity, peakEquity := peak,
            maxDrawdown := maxDd, maxDrawdownPercent := maxDdPct }

def initialWalkState : WalkState := ⟨0, 0, 0, 0, 0, 0, 0, 0⟩

/-- The `calculateStats` of src/unnamed/part_005.  `rates` is the process-wide
`currentExchangeRates` table the source reads implicitly. -/
def calculateStats (trades : List Trade) (baseCurrency : String)
    (rates : ExchangeRates) : TradeStats :=
  let closedTrades := closedTradesOf trades
  if closedTrades.length = 0 then
    { totalTrades := trades.length, winningTrades := 0, losingTrades := 0,
      winRate := 0, totalPnl := 0, averageWin := 0, averageLoss := 0,
      profitFactor := .fin 0, largestWin := 0, largestLoss := 0,
      averageRRR := 0, consecutiveWins := 0, consecutiveLosses := 0,
      expectancy := 0, averageHoldingTime := 0,
      maxDrawdown := 0, maxDrawdownPercent := 0 }
  else
    let pnlOf := getPnl baseCurrency rates
    let winningTrades := winningOf trades
    let losingTrades := losingOf trades
    let totalPnl := (closedTrades.map pnlOf).sum
    let totalWins := grossWinSum trades baseCurrency rates
    let totalLosses := grossLossSum trades baseCurrency rates
    let winRateFrac := (winningTrades.length : ℚ) / (closedTrades.length : ℚ)
    let averageWin :=
      if 0 < winningTrades.length then totalWins / (winningTrades.length : ℚ) else 0
    let averageLoss :=
      if 0 < losingTrades.length then totalLosses / (losingTrades.length : ℚ) else 0
    let lossRateFrac := 1 - winRateFrac
    let expectancy := winRateFrac * averageWin - lossRateFrac * averageLoss
    -- holding time: the `t.entryTime` truthiness check always passes (the
    -- field is non-nullable in the Trade type), so only exitTime is tested
    let holding := closedTrades.foldl
      (fun (acc : Int × Nat) t =>
        match t.exitTime with
        | none => acc
        | some xt =>
          let duration := xt - t.entryTime
          if 0 < duration then (acc.1 + duration, acc.2 + 1) else acc)
      (0, 0)
    let averageHoldingTime :=
      if 0 < holding.2 then ((holding.1 : ℚ) / (holding.2 : ℚ)) / (1000 * 60 * 60)
      else 0
    let sortedTrades :=
      insertionSortBy (fun a b => decide (a.exitTime.getD 0 < b.exitTime.getD 0))
        closedTrades
    let walk := sortedTrades.foldl (fun s t => walkStep (pnlOf t) s) initialWalkState
    let tradesWithRRR := closedTrades.filter fun t =>
      truthyOpt t.stopLoss && truthyOpt t.takeProfit && decide (t.entryPrice ≠ 0)
    let avgRRR :=
      if 0 < tradesWithRRR.length then
        let totalRRR := (tradesWithRRR.map (fun t =>
          let risk := |jsOrQ t.entryPrice 0 - jsOrQ (t.stopLoss.getD 0) (jsOrQ t.entryPrice 0)|
          let reward := |jsOrQ (t.takeProfit.getD 0) (jsOrQ t.entryPrice 0) - jsOrQ t.entryPrice 0|
          if 0 < risk then reward / risk else 0)).sum
        totalRRR / (tradesWithRRR.length : ℚ)
      else 0
    { totalTrades := trades.length,
      winningTrades := winningTrades.length,
      losingTrades := losingTrades.length,
      winRate := winRateFrac * 100,
      totalPnl := totalPnl,
      averageWin := averageWin,
      averageLoss := averageLoss,
      profitFactor :=
        if 0 < totalLosses then .fin (totalWins / totalLosses)
        else if 0 < totalWins then .inf
        else .fin 0,
      largestWin := if 0 < winningTrades.length then listMax (winningTrades.map pnlOf) else 0,
      largestLoss := if 0 < losingTrades.length then listMin (losingTrades.map pnlOf) else 0,
      averageRRR := avgRRR,
      consecutiveWins := walk.maxConsecutiveWins,
      consecutiveLosses := walk.maxConsecutiveLosses,
      expectancy := expectancy,
      averageHoldingTime := averageHoldingTime,
      maxDrawdown := walk.maxDrawdown,
      maxDrawdownPercent := walk.maxDrawdownPercent }

/-! ## Concrete trade fixtures -/

/-- A closed trade in the base currency with the given P&L and exit time. -/
def mkClosed (pnl : ℚ) (xt : Int) : Trade :=
  { symbol := "EURUSD", direction := .long, entryPrice := 1, exitPrice := some 1,
    units := 1, entryTime := 0, exitTime := some xt, stopLoss := none,
    takeProfit := none, pnl := some pnl, pnlPercent := none, status := .closed,
    currency := some "USD", tags := [] }

/-- Ten closed USD trades: six winners of +100, four losers of −50. -/
def c1Trades : List Trade :=
  ((List.range 6).map fun i => mkClosed 100 (1000 * ((i : Int) + 1))) ++
  ((List.range 4).map fun i => mkClosed (-50) (1000 * ((i : Int) + 7)))

/-- C1: on 10 closed trades (6 × +100, 4 × −50) in the base currency,
`calculateStats` returns winRate 60, profitFactor 3, averageWin 100,
averageLoss 50 and expectancy 0.6·100 − 0.4·50 = 40. -/
theorem c1_ten_trade_scenario :
    (calculateStats c1Trades "USD" currentExchangeRates).winRate = 60 ∧
    (calculateStats c1Trades "USD" currentExchangeRates).profitFactor = .fin 3 ∧
    (calculateStats c1Trades "USD" currentExchangeRates).averageWin = 100 ∧
    (calculateStats c1Trades "USD" currentExchangeRates).averageLoss = 50 ∧
    (calculateStats c1Trades "USD" currentExchangeRates).expectancy = 40 :=
  by decide!

/-- C6: a single closed trade of −1000 yields profitFactor 0 (not ∞),
maxDrawdown 1000, and maxDrawdownPercent 0 (the running peak never
exceeds 0, and the percent branch only runs when the peak is positive). -/
theorem c6_single_loss_scenario :
    (calculateStats [mkClosed (-1000) 1000] "USD" currentExchangeRates).profitFactor
      = .fin 0 ∧
    (calculateStats [mkClosed (-1000) 1000] "USD" currentExchangeRates).maxDrawdown
      = 1000 ∧
    (calculateStats [mkClosed (-1000) 1000] "USD" currentExchangeRates).maxDrawdownPercent
      = 0 :=
  by decide!

/-- C7: converting any amount from a currency to itself is the identity,
for both implementations of `convertCurrency`, every rate table, and
every code — the `from == to` fast path fires before any rate lookup. -/
theorem c7_same_currency_identity (a : ℚ) (c : String) (rates : ExchangeRates) :
    convertCurrency a c c rates = a ∧ convertCurrencyUtils a c c rates = a := by
  constructor <;> simp [convertCurrency, convertCurrencyUtils]

/-- C10: `convertCurrency` is total and never divides by zero: the
effective rate of any code — absent from the table or stored as 0 — is
defaulted to 1 before the division, so the divisor `lookupRate rates from`
is never 0 and the result is the finite rational given by the unfolding
equation. -/
theorem c10_no_division_by_zero (amount : ℚ) (f t : String) (rates : ExchangeRates) :
    lookupRate rates f ≠ 0 ∧
    convertCurrency amount f t rates =
      (if f = t then amount
       else if amount = 0 then 0
       else amount / lookupRate rates f * lookupRate rates t) := by
  refine ⟨?_, rfl⟩
  unfold lookupRate
  match List.lookup f.toUpper rates with
  | none => norm_num
  | some v =>
    by_cases hv : v = 0 <;> simp [hv]

/-- C5: `profitFactor` is the gross win sum divided by the absolute gross
loss sum; when the loss sum is 0 and the win sum is positive it is the JS
value `Infinity`; when both sums are 0 (and at least one closed trade
exists) it is 0. -/
theorem c5_profit_factor_formula (trades : List Trade) (base : String)
    (rates : ExchangeRates) (h : closedTradesOf trades ≠ []) :
    ((0 : ℚ) < grossLossSum trades base rates →
      (calculateStats trades base rates).profitFactor =
        .fin (grossWinSum trades base rates / grossLossSum trades base rates)) ∧
    (grossLossSum trades base rates = 0 → 0 < grossWinSum trades base rates →
      (calculateStats trades base rates).profitFactor = .inf) ∧
    (grossLossSum trades base rates = 0 → grossWinSum trades base rates = 0 →
      (calculateStats trades base rates).profitFactor = .fin 0) := by
  have hlen : ¬ (closedTradesOf trades).length = 0 := by
    simpa [List.length_eq_zero] using h
  simp only [calculateStats, if_neg hlen]
  refine ⟨fun hL => ?_, fun hL hW => ?_, fun hL hW => ?_⟩
  · simp [if_pos hL]
  · simp [hL, hW]
  · simp [hL, hW]

/-- Witness for C5 at a concrete input: one +100 and one −50 trade give
profit factor 100/50 = 2. -/
theorem c5_profit_factor_formula_witness :
    (calculateStats [mkClosed 100 1, mkClosed (-50) 2] "USD"
        currentExchangeRates).profitFactor =
      .fin (grossWinSum [mkClosed 100 1, mkClosed (-50) 2] "USD" currentExchangeRates /
        grossLossSum [mkClosed 100 1, mkClosed (-50) 2] "USD" currentExchangeRates) ∧
    grossWinSum [mkClosed 100 1, mkClosed (-50) 2] "USD" currentExchangeRates /
        grossLossSum [mkClosed 100 1, mkClosed (-50) 2] "USD" currentExchangeRates = 2 :=
  ⟨(c5_profit_factor_formula [mkClosed 100 1, mkClosed (-50) 2] "USD"
      currentExchangeRates (by decide!)).1
      (by decide!),
   by decide!⟩

/-! ## HTML report parser (src/lib/mt5Parser.ts, `parseMT5Report`)

The DOM walk is embedded as a list of sibling rows following the column
header row of the Positions table: `hasTh` is
`currentRow.querySelector('th') !== null`, and `cells` the text contents
of the row's cells.  `parseFloat` of a non-numeric, non-empty string is
JS `NaN`; it is modelled as 0 (every input appearing in a claim has
numeric or empty cells). -/

/-- Decimal-string parser: digits with an optional single dot and
optional leading minus, the shapes `parseFloat` receives here. -/
def parseDecimalCore (s : String) : Option ℚ :=
  match s.splitOn "." with
  | [i] => i.toNat?.map fun n => (n : ℚ)
  | [i, f] =>
    match i.toNat?, f.toNat? with
    | some a, some b => some ((a : ℚ) + (b : ℚ) / (10 : ℚ) ^ f.length)
    | _, _ => none
  | _ => none

def parseDecimal (s : String) : Option ℚ :=
  if s.startsWith "-" then (parseDecimalCore (s.drop 1)).map fun q => -q
  else parseDecimalCore s

/-- Embeds `parseFloat(text || '0')`. -/
def parseFloatD (s : String) : ℚ :=
  if s = "" then 0 else (parseDecimal s).getD 0

/-- Days between 1970-01-01 and the given civil date (proleptic
Gregorian), the arithmetic inside `new Date(...)`. -/
def daysFromCivil (y m d : Int) : Int :=
  let y2 := if m ≤ 2 then y - 1 else y
  let era := (if 0 ≤ y2 then y2 else y2 - 399) / 400
  let yoe := y2 - era * 400
  let mp := (m + 9) % 12
  let doy := (153 * mp + 2) / 5 + d - 1
  let doe := yoe * 365 + yoe / 4 - yoe / 100 + doy
  era * 146097 + doe - 719468

/-- Epoch milliseconds of an MT5 report timestamp
`YYYY.MM.DD HH:MM:SS` (the composition of `formatMT5Date` and
`new Date(...)`, all times taken as UTC). -/
def parseMT5DateMs (s : String) : Int :=
  match s.splitOn " " with
  | [d, t] =>
    match d.splitOn ".", t.splitOn ":" with
    | [y, mo, dd], [h, mi, sec] =>
      match y.toNat?, mo.toNat?, dd.toNat?, h.toNat?, mi.toNat?, sec.toNat? with
      | some yn, some mn, some dn, some hn, some min2, some sn =>
        daysFromCivil yn mn dn * 86400000 + hn * 3600000 + min2 * 60000 + sn * 1000
      | _, _, _, _, _, _ => 0
    | _, _ => 0
  | _ => 0

/-- One sibling row of the Positions table. -/
structure Mt5Row where
  hasTh : Bool
  cells : List String
deriving DecidableEq, Repr

/-- End-of-table test of the row loop:
`currentRow.querySelector('th') || currentRow.cells.length < 5`. -/
def stopRow (r : Mt5Row) : Bool := r.hasTh || decide (r.cells.length < 5)

/-- The per-row body of the loop (cells 0–13 positional, type cell must
be `buy`/`sell`, entry time and symbol must be non-empty). -/
def rowToTrade (r : Mt5Row) : Option Trade :=
  if 14 ≤ r.cells.length then
    let typeStr := ((r.cells.getD 3 "").trim).toLower
    if typeStr = "buy" ∨ typeStr = "sell" then
      let entryTimeStr := (r.cells.getD 0 "").trim
      let symbol := (r.cells.getD 2 "").trim
      let volume := parseFloatD (r.cells.getD 5 "").trim
      let entryPrice := parseFloatD (r.cells.getD 6 "").trim
      let slText := (r.cells.getD 7 "").trim
      let sl := if slText ≠ "" then some ((parseDecimal slText).getD 0) else none
      let tpText := (r.cells.getD 8 "").trim
      let tp := if tpText ≠ "" then some ((parseDecimal tpText).getD 0) else none
      let exitTimeStr := (r.cells.getD 9 "").trim
      let exitPrice := parseFloatD (r.cells.getD 10 "").trim
      let commission := parseFloatD (r.cells.getD 11 "").trim
      let swap := parseFloatD (r.cells.getD 12 "").trim
      let profit := parseFloatD (r.cells.getD 13 "").trim
      let pnl := profit + commission + swap
      if entryTimeStr ≠ "" ∧ symbol ≠ "" then
        some { symbol := symbol,
               direction := if typeStr = "buy" then .long else .short,
               entryPrice := entryPrice,
               exitPrice := some exitPrice,
               units := volume,
               entryTime := parseMT5DateMs entryTimeStr,
               exitTime :=
                 if exitTimeStr ≠ "" then some (parseMT5DateMs exitTimeStr) else none,
               stopLoss := sl,
               takeProfit := tp,
               pnl := some pnl,
               pnlPercent := none,
               status := .closed,
               currency := none,
               tags := ["MT5", "Imported"] }
      else none
    else none
  else none

/-- The row iteration of `parseMT5Report` starting at the first data row:
stop at a `stopRow`, otherwise collect the row's trade (if any) and move
to the next sibling. -/
def parseMT5Rows : List Mt5Row → List Trade
  | [] => []
  | r :: rs =>
    if stopRow r then []
    else
      match rowToTrade r with
      | some t => t :: parseMT5Rows rs
      | none => parseMT5Rows rs

/-- A row with 6 cells and no header cell: the source loop skips it but
does not stop. -/
def mt5SkipRow : Mt5Row := ⟨false, ["x1", "x2", "x3", "x4", "x5", "x6"]⟩

/-- A complete 14-cell buy row. -/
def mt5BuyRow : Mt5Row :=
  ⟨false, ["2026.02.14 15:34:03", "123", "EURUSD", "buy", "", "1", "1.1",
           "1.0", "1.2", "2026.02.14 16:00:00", "1.15", "-2", "-1", "50"]⟩

/-- A complete 14-cell buy row whose exit-time cell (index 9) is empty. -/
def mt5NoExitRow : Mt5Row :=
  ⟨false, ["2026.02.14 15:34:03", "124", "EURUSD", "buy", "", "1", "1.1",
           "1.0", "1.2", "", "1.15", "-2", "-1", "50"]⟩

/-- C8 counterexample: a header-free row with only 6 cells (fewer than
14) does not stop the iteration — the 14-cell buy row after it still
contributes a trade, so the output has length 1, not 0. -/
theorem c8_counterexample :
    mt5SkipRow.cells.length < 14 ∧ mt5SkipRow.hasTh = false ∧
    rowToTrade mt5SkipRow = none ∧
    (parseMT5Rows [mt5SkipRow, mt5BuyRow]).length = 1 :=
  by decide!

/-- C8 amended: the iteration stops at the first row containing a header
cell or having fewer than 5 cells; rows with 5–13 cells are skipped
(contributing no trade, since `rowToTrade` requires at least 14 cells)
without stopping the scan. -/
theorem c8_amended_stop_rule (rows : List Mt5Row) :
    parseMT5Rows rows =
      (rows.takeWhile fun r => !stopRow r).filterMap rowToTrade := by
  induction rows with
  | nil => rfl
  | cons r rs ih =>
    cases h : stopRow r
    · cases hr : rowToTrade r <;>
        simp [parseMT5Rows, h, List.takeWhile_cons, List.filterMap_cons, hr, ih]
    · simp [parseMT5Rows, h, List.takeWhile_cons]

/-- C9 counterexample: `parseMT5Report` emits a trade with
`status = closed` but `exitTime = null` when the exit-time cell of an
otherwise complete Positions row is empty. -/
theorem c9_counterexample :
    (parseMT5Rows [mt5NoExitRow]).map (fun t => (t.status, t.exitTime)) =
      [(TradeStatus.closed, none)] :=
  by decide!

theorem rowToTrade_fields (r : Mt5Row) (t : Trade) (h : rowToTrade r = some t) :
    t.status = .closed ∧ t.pnl.isSome ∧ t.exitPrice.isSome := by
  simp only [rowToTrade] at h
  split_ifs at h
  all_goals first
    | exact Option.noConfusion h
    | (cases h; simp)

theorem rowToTrade_exitTime (r : Mt5Row) (t : Trade) (h : rowToTrade r = some t) :
    ((r.cells.getD 9 "").trim ≠ "" → t.exitTime.isSome) ∧
    ((r.cells.getD 9 "").trim = "" → t.exitTime = none) := by
  simp only [rowToTrade] at h
  split_ifs at h
  all_goals first
    | exact Option.noConfusion h
    | (cases h; constructor <;> intro hx <;> simp_all)

theorem parseMT5Rows_invariant (rows : List Mt5Row) (t : Trade)
    (ht : t ∈ parseMT5Rows rows) :
    (t.status = .closed ∧ t.pnl.isSome ∧ t.exitPrice.isSome) ∧
    ∃ r ∈ rows, rowToTrade r = some t := by
  induction rows with
  | nil => simp [parseMT5Rows] at ht
  | cons r rs ih =>
    unfold parseMT5Rows at ht
    split at ht
    · simp at ht
    · cases hr : rowToTrade r <;> rw [hr] at ht
      · obtain ⟨props, r2, hr2, hrt⟩ := ih ht
        exact ⟨props, r2, List.mem_cons_of_mem _ hr2, hrt⟩
      · rcases List.mem_cons.mp ht with h | h
        · subst h
          exact ⟨rowToTrade_fields r t hr, r, List.mem_cons_self r rs, hr⟩
        · obtain ⟨props, r2, hr2, hrt⟩ := ih h
          exact ⟨props, r2, List.mem_cons_of_mem _ hr2, hrt⟩

/-! ## Log parsers (src/hooks/useTradeStore.ts)

`parseOrderLogsCSV` splits each data line into a timestamp and free text
and then tries independent regular expressions against the text, each
match filling fields of the same entry.  The embedding keeps the
timestamp as its epoch value and models each regular expression as a
matcher over the space-separated tokens of the text; this agrees with
the source regexes on texts whose captured fields are whole, well-formed
tokens (every text appearing in a claim is of this shape). -/

inductive OrderAction | buy | sell | modify | cancel | execute | limit
deriving DecidableEq, Repr

structure OrderLogEntry where
  time : Int
  text : String
  orderId : Option String
  symbol : Option String
  action : Option OrderAction
  price : Option ℚ
  units : Option ℚ
  stopLoss : Option ℚ
  takeProfit : Option ℚ
  isEntry : Option Bool
deriving DecidableEq, Repr

structure BalanceHistoryEntry where
  time : Int
  balanceBefore : ℚ
  balanceAfter : ℚ
  pnl : ℚ
  currency : String
  action : String
  direction : Option Direction
  symbol : Option String
  exchange : Option String
  exitPrice : Option ℚ
  entryPrice : Option ℚ
  units : Option ℚ
deriving DecidableEq, Repr

def isUpperAlpha (c : Char) : Bool := decide ('A' ≤ c) && decide (c ≤ 'Z')

/-- The shape `[A-Z]+:[A-Z]+`. -/
def isSymbolShape (s : String) : Bool :=
  match s.splitOn ":" with
  | [a, b] =>
    decide (a ≠ "") && decide (b ≠ "") &&
      a.toList.all isUpperAlpha && b.toList.all isUpperAlpha
  | _ => false

/-- The shape `[A-Z:]+`. -/
def isUpperColon (s : String) : Bool :=
  decide (s ≠ "") && s.toList.all fun c => isUpperAlpha c || decide (c = ':')

/-- Try a position matcher at every token position, leftmost match wins
(regex search semantics). -/
def firstTokenMatch (f : List String → Option α) : List String → Option α
  | [] => none
  | t :: ts =>
    match f (t :: ts) with
    | some a => some a
    | none => firstTokenMatch f ts

/-- Embeds `/Order (\d+)/`. -/
def orderIdAt : List String → Option String
  | "Order" :: t :: _ =>
    let ds := String.mk (t.toList.takeWhile Char.isDigit)
    if ds ≠ "" then some ds else none
  | _ => none

/-- Embeds `/symbol ([A-Z]+:[A-Z]+)/`. -/
def symbolAt : List String → Option String
  | "symbol" :: t :: _ =>
    let cap := String.mk (t.toList.takeWhile fun c => isUpperAlpha c || decide (c = ':'))
    if isSymbolShape cap then some cap else none
  | _ => none

/-- Embeds `/has been executed at price ([0-9.]+) for ([0-9.]+) units/`. -/
def execAt : List String → Option (ℚ × ℚ)
  | "has" :: "been" :: "executed" :: "at" :: "price" :: p :: "for" :: u :: un :: _ =>
    if un.startsWith "units" then
      match parseDecimalCore p, parseDecimalCore u with
      | some pq, some uq => some (pq, uq)
      | _, _ => none
    else none
  | _ => none

/-- Embeds `/Call to place market order to (buy|sell) ([0-9.]+) units of symbol
([A-Z:]+) with SL ([0-9.]+) and TP ([0-9.]+)/`. -/
def callWithSlTpAt : List String → Option (OrderAction × ℚ × String × ℚ × ℚ)
  | "Call" :: "to" :: "place" :: "market" :: "order" :: "to" :: dir :: u ::
      "units" :: "of" :: "symbol" :: s :: "with" :: "SL" :: sl :: "and" :: "TP" :: tp :: _ =>
    if (dir = "buy" ∨ dir = "sell") ∧ isUpperColon s then
      match parseDecimalCore u, parseDecimalCore sl, parseDecimalCore tp with
      | some uq, some slq, some tpq =>
        some (if dir = "buy" then .buy else .sell, uq, s, slq, tpq)
      | _, _, _ => none
    else none
  | _ => none

/-- Embeds `/Call to place market order to (buy|sell) ([0-9.]+) units of symbol
([A-Z:]+)(?:\s*)$/` — anchored at the end of the text. -/
def callNoSlTpAt : List String → Option (OrderAction × ℚ × String)
  | ["Call", "to", "place", "market", "order", "to", dir, u, "units", "of", "symbol", s] =>
    if (dir = "buy" ∨ dir = "sell") ∧ isUpperColon s then
      match parseDecimalCore u with
      | some uq => some (if dir = "buy" then .buy else .sell, uq, s)
      | none => none
    else none
  | _ => none

/-- Embeds `/Call to place limit order to (buy|sell) ([0-9.]+) units of symbol
([A-Z:]+) at price ([0-9.]+) with SL ([0-9.]+) and TP ([0-9.]+)/`. -/
def limitAt : List String → Option (ℚ × String × ℚ × ℚ × ℚ)
  | "Call" :: "to" :: "place" :: "limit" :: "order" :: "to" :: dir :: u ::
      "units" :: "of" :: "symbol" :: s :: "at" :: "price" :: p ::
      "with" :: "SL" :: sl :: "and" :: "TP" :: tp :: _ =>
    if (dir = "buy" ∨ dir = "sell") ∧ isUpperColon s then
      match parseDecimalCore u, parseDecimalCore p, parseDecimalCore sl, parseDecimalCore tp with
      | some uq, some pq, some slq, some tpq => some (uq, s, pq, slq, tpq)
      | _, _, _, _ => none
    else none
  | _ => none

/-- Embeds `/Modify position for symbol ([A-Z:]+) with SL ([0-9.]+) and TP ([0-9.]+)/`. -/
def modifyAt : List String → Option (String × ℚ × ℚ)
  | "Modify" :: "position" :: "for" :: "symbol" :: s :: "with" :: "SL" :: sl :: "and" :: "TP" :: tp :: _ =>
    if isUpperColon s then
      match parseDecimalCore sl, parseDecimalCore tp with
      | some slq, some tpq => some (s, slq, tpq)
      | _, _ => none
    else none
  | _ => none

/-- One data line of `parseOrderLogsCSV`: the extractors run in source
order, later matches overwriting the fields they set. -/
def parseOrderLine (time : Int) (text : String) : OrderLogEntry :=
  let toks := text.splitOn " "
  let e : OrderLogEntry := ⟨time, text, none, none, none, none, none, none, none, none⟩
  let e := match firstTokenMatch orderIdAt toks with
    | some oid => { e with orderId := some oid }
    | none => e
  let e := match firstTokenMatch symbolAt toks with
    | some s => { e with symbol := some s }
    | none => e
  let e := match firstTokenMatch execAt toks with
    | some (p, u) =>
      { e with action := some .execute, price := some p, units := some u }
    | none => e
  let e := match firstTokenMatch callWithSlTpAt toks with
    | some (a, u, s, sl, tp) =>
      { e with action := some a, units := some u, symbol := some s,
               stopLoss := some sl, takeProfit := some tp, isEntry := some true }
    | none => e
  let e := match firstTokenMatch callNoSlTpAt toks with
    | some (a, u, s) =>
      { e with action := some a, units := some u, symbol := some s, isEntry := some false }
    | none => e
  let e := match firstTokenMatch limitAt toks with
    | some (u, s, p, sl, tp) =>
      { e with action := some .limit, units := some u, symbol := some s,
               price := some p, stopLoss := some sl, takeProfit := some tp,
               isEntry := some true }
    | none => e
  let e := match firstTokenMatch modifyAt toks with
    | some (s, sl, tp) =>
      { e with action := some .modify, symbol := some s,
               stopLoss := some sl, takeProfit := some tp }
    | none => e
  e

/-! ## Trade Reconciler (src/hooks/useTradeStore.ts, `mergeTradeData`) -/

/-- Ephemeral per-symbol position candidate built from the order log.
`slTpHistory` entries are (time, stopLoss, takeProfit). -/
structure PositionState where
  symbol : String
  entryTime : Int
  entryPrice : ℚ
  units : ℚ
  direction : Direction
  stopLoss : Option ℚ
  takeProfit : Option ℚ
  slTpHistory : List (Int × ℚ × ℚ)
deriving DecidableEq, Repr

/-- The `Map<string, PositionState[]>`: an association list where the
most recent binding for a key wins (only `get`/`set` are used). -/
def PosMap := List (String × List PositionState)

def getPos (m : PosMap) (s : String) : List PositionState :=
  (List.lookup s m).getD []

def setPos (m : PosMap) (s : String) (l : List PositionState) : PosMap :=
  (s, l) :: m

/-- In-place mutation of the last element of a JS array. -/
def updateLast (f : α → α) : List α → List α
  | [] => []
  | [x] => [f x]
  | x :: xs => x :: updateLast f xs

/-- First pass of `mergeTradeData`: scan time-ascending order events,
appending a `PositionState` for each entry call carrying SL/TP (entry
price taken from a matching `execute` within 5 seconds anywhere in the
log), and applying SL/TP modifications to the newest position of the
symbol. -/
def buildPositions (sortedOrders : List OrderLogEntry) : PosMap :=
  sortedOrders.foldl
    (fun m order =>
      match order.symbol with
      | none => m
      | some symbol =>
        let m1 :=
          if (decide (order.action = some .buy) || decide (order.action = some .sell))
              && decide (order.isEntry = some true)
              && truthyOpt order.stopLoss && truthyOpt order.takeProfit then
            let execution := sortedOrders.find? fun o =>
              decide (o.action = some .execute) && decide (o.symbol = some symbol)
                && decide (o.units = order.units)
                && decide (|o.time - order.time| < 5000)
            let entryPrice := (execution.bind fun o => o.price).getD 0
            let position : PositionState :=
              { symbol := symbol, entryTime := order.time, entryPrice := entryPrice,
                units := order.units.getD 0,
                direction := if order.action = some .buy then .long else .short,
                stopLoss := order.stopLoss, takeProfit := order.takeProfit,
                slTpHistory :=
                  [(order.time, order.stopLoss.getD 0, order.takeProfit.getD 0)] }
            setPos m symbol (getPos m symbol ++ [position])
          else m
        if decide (order.action = some .modify)
            && truthyOpt order.stopLoss && truthyOpt order.takeProfit then
          let positions := getPos m1 symbol
          if 0 < positions.length then
            setPos m1 symbol (updateLast
              (fun p =>
                { p with stopLoss := order.stopLoss, takeProfit := order.takeProfit,
                         slTpHistory := p.slTpHistory ++
                           [(order.time, order.stopLoss.getD 0, order.takeProfit.getD 0)] })
              positions)
          else m1
        else m1)
    []

/-- The candidate-selection loop of the second pass, with its running
`matchedPosition` accumulator: skip candidates with the wrong direction,
an entry time not strictly before the exit, or when the reported entry
price is 0; break on the first candidate within 0.1% relative price
tolerance; otherwise remember (and keep overwriting) candidates whose
unit count is within 1 of the event's. -/
def findMatchLoop (b : BalanceHistoryEntry) (exitTime : Int) :
    List PositionState → Option PositionState → Option PositionState
  | [], acc => acc
  | pos :: rest, acc =>
    if some pos.direction ≠ b.direction then findMatchLoop b exitTime rest acc
    else if ¬ pos.entryTime < exitTime then findMatchLoop b exitTime rest acc
    else
      let balanceEntryPrice := b.entryPrice.getD 0
      if balanceEntryPrice = 0 then findMatchLoop b exitTime rest acc
      else if |pos.entryPrice - balanceEntryPrice| / balanceEntryPrice < 1 / 1000 then
        some pos
      else if |pos.units - b.units.getD 0| < 1 then
        findMatchLoop b exitTime rest (some pos)
      else findMatchLoop b exitTime rest acc

def findMatchingPosition (b : BalanceHistoryEntry) (exitTime : Int)
    (positions : List PositionState) : Option PositionState :=
  findMatchLoop b exitTime positions none

/-- The secondary heuristic: the first `execute` event on the full
symbol whose price is within 0.1% of the reported entry price and whose
time is before the exit. -/
def findEntryOrder (sortedOrders : List OrderLogEntry) (fullSymbol : String)
    (bp : ℚ) (exitTime : Int) : Option OrderLogEntry :=
  sortedOrders.find? fun o =>
    decide (o.symbol = some fullSymbol) && decide (o.action = some .execute)
      && o.price.isSome && decide (0 < bp)
      && decide (|o.price.getD 0 - bp| / bp < 1 / 1000)
      && decide (o.time < exitTime)

/-- Embeds `positions.indexOf(matched)` followed by `splice(idx, 1)`. -/
def removeFirst [DecidableEq α] : List α → α → List α
  | [], _ => []
  | x :: xs, a => if x = a then xs else x :: removeFirst xs a

/-- Embeds `o.stopLoss || null`. -/
def jsOrNull (o : Option ℚ) : Option ℚ := if truthyOpt o then o else none

def containsSub (s sub : String) : Bool :=
  s.toList.tails.any fun t => sub.toList.isPrefixOf t

/-- Tag derivation of `mergeTradeData`. -/
def mergeTags (b : BalanceHistoryEntry) : List String :=
  let sym := b.symbol.getD ""
  (if truthyStr b.exchange then [b.exchange.getD ""] else []) ++
  (if 5000 < |b.pnl| then ["Big Trade"] else []) ++
  (if 1000 < |b.pnl| then ["Good Trade"] else []) ++
  (if containsSub sym "XAU" || containsSub sym "XAG" then ["Metals"] else []) ++
  (if ["BTC", "ETH", "SOL", "XRP", "ADA"].any (fun c => containsSub sym c) then
    ["Crypto"] else []) ++
  (if (["JPY", "USD", "EUR", "GBP", "CAD", "AUD", "CHF", "NZD"].any fun c =>
        containsSub sym c) &&
      !(containsSub sym "XAU" || containsSub sym "XAG") then ["Forex"] else [])

/-- The per-event guard of the second pass:
`!symbol || !direction || entryPrice === undefined || exitPrice === undefined`. -/
def balanceQualifies (b : BalanceHistoryEntry) : Bool :=
  truthyStr b.symbol && b.direction.isSome && b.entryPrice.isSome && b.exitPrice.isSome

def fullSymbolOf (b : BalanceHistoryEntry) : String :=
  b.exchange.getD "undefined" ++ ":" ++ b.symbol.getD ""

/-- Process one balance event of the second pass: match it against the
symbol's candidate pool (consuming the candidate on success), otherwise
run the execute-order heuristic, otherwise estimate the entry time as
exit − 2h; emit the closed trade. -/
def processBalance (sortedOrders : List OrderLogEntry) (m : PosMap)
    (b : BalanceHistoryEntry) : PosMap × Option Trade :=
  if balanceQualifies b then
    let fullSymbol := fullSymbolOf b
    let exitTime := b.time
    let positions := getPos m fullSymbol
    let res : PosMap × Int × Option ℚ × Option ℚ :=
      match findMatchingPosition b exitTime positions with
      | some pos =>
        let relevantHistory := pos.slTpHistory.filter fun h => decide (h.1 ≤ exitTime)
        let slTp :=
          match relevantHistory.getLast? with
          | some last => (some last.2.1, some last.2.2)
          | none => (pos.stopLoss, pos.takeProfit)
        (setPos m fullSymbol (removeFirst positions pos), pos.entryTime, slTp)
      | none =>
        match findEntryOrder sortedOrders fullSymbol (b.entryPrice.getD 0) exitTime with
        | some entryOrder =>
          let nearbyOrders := sortedOrders.filter fun o =>
            decide (o.symbol = some fullSymbol)
              && decide (|o.time - entryOrder.time| < 10000)
              && truthyOpt o.stopLoss && truthyOpt o.takeProfit
          let sl0 := match nearbyOrders.head? with
            | some o => jsOrNull o.stopLoss
            | none => none
          let tp0 := match nearbyOrders.head? with
            | some o => jsOrNull o.takeProfit
            | none => none
          let modifications := sortedOrders.filter fun o =>
            decide (o.symbol = some fullSymbol) && decide (o.action = some .modify)
              && decide (entryOrder.time < o.time) && decide (o.time ≤ exitTime)
          let slTp := match modifications.getLast? with
            | some lastMod => (jsOrOpt lastMod.stopLoss sl0, jsOrOpt lastMod.takeProfit tp0)
            | none => (sl0, tp0)
          (m, entryOrder.time, slTp)
        | none => (m, exitTime - 2 * 60 * 60 * 1000, none, none)
    let entryP := b.entryPrice.getD 0
    let pnlPercent :=
      if 0 < entryP then b.pnl / (entryP * jsOrQ (b.units.getD 0) 1) * 100 else 0
    let t : Trade :=
      { symbol := b.symbol.getD "",
        direction := b.direction.getD .long,
        entryPrice := entryP,
        exitPrice := some (b.exitPrice.getD 0),
        units := b.units.getD 0,
        entryTime := res.2.1,
        exitTime := some b.time,
        stopLoss := res.2.2.1,
        takeProfit := res.2.2.2,
        pnl := some b.pnl,
        pnlPercent := some pnlPercent,
        status := .closed,
        currency := none,
        tags := mergeTags b }
    (res.1, some t)
  else (m, none)

def sortOrdersAsc (orders : List OrderLogEntry) : List OrderLogEntry :=
  insertionSortBy (fun a b => decide (a.time < b.time)) orders

def sortBalanceAsc (es : List BalanceHistoryEntry) : List BalanceHistoryEntry :=
  insertionSortBy (fun a b => decide (a.time < b.time)) es

/-- One iteration of the second pass: thread the position pool and
append the emitted trade, if any. -/
def mergeStep (sortedOrders : List OrderLogEntry) (st : PosMap × List Trade)
    (b : BalanceHistoryEntry) : PosMap × List Trade :=
  match processBalance sortedOrders st.1 b with
  | (m2, some t) => (m2, st.2 ++ [t])
  | (m2, none) => (m2, st.2)

def mergeTradeData (balanceEntries : List BalanceHistoryEntry)
    (orderEntries : List OrderLogEntry) : List Trade :=
  let sortedOrders := sortOrdersAsc orderEntries
  let sortedBalance := sortBalanceAsc balanceEntries
  let finalSt := sortedBalance.foldl (mergeStep sortedOrders)
    (buildPositions sortedOrders, [])
  insertionSortBy (fun a b => decide (b.exitTime.getD 0 < a.exitTime.getD 0)) finalSt.2

/-- Tag derivation of `parseBalanceHistoryTrades` (smaller lists than the
merge path and no "Good Trade"). -/
def balanceOnlyTags (b : BalanceHistoryEntry) : List String :=
  let sym := b.symbol.getD ""
  (if truthyStr b.exchange then [b.exchange.getD ""] else []) ++
  (if 5000 < |b.pnl| then ["Big Trade"] else []) ++
  (if containsSub sym "XAU" || containsSub sym "XAG" then ["Metals"] else []) ++
  (if ["BTC", "ETH", "SOL"].any (fun c => containsSub sym c) then ["Crypto"] else []) ++
  (if (["JPY", "USD", "EUR", "GBP", "CAD"].any fun c => containsSub sym c) &&
      !containsSub sym "XAU" then ["Forex"] else [])

/-- The `parseBalanceHistoryTrades` path: single-file mode — every qualifying
event (truthiness guard, so a 0 entry or exit price is skipped) becomes
a closed trade with null SL/TP and entry time estimated as exit − 2h. -/
def parseBalanceHistoryTrades (entries : List BalanceHistoryEntry) : List Trade :=
  entries.filterMap fun entry =>
    if truthyStr entry.symbol && entry.direction.isSome
        && truthyOpt entry.entryPrice && truthyOpt entry.exitPrice then
      let entryP := entry.entryPrice.getD 0
      let pnlPercent :=
        if 0 < entryP then entry.pnl / (entryP * jsOrQ (entry.units.getD 0) 1) * 100
        else 0
      some { symbol := entry.symbol.getD "",
             direction := entry.direction.getD .long,
             entryPrice := entryP,
             exitPrice := some (entry.exitPrice.getD 0),
             units := entry.units.getD 0,
             entryTime := entry.time - 2 * 60 * 60 * 1000,
             exitTime := some entry.time,
             stopLoss := none,
             takeProfit := none,
             pnl := some entry.pnl,
             pnlPercent := some pnlPercent,
             status := .closed,
             currency := none,
             tags := balanceOnlyTags entry }
    else none

/-! ## C4: candidate selection -/

/-- A candidate the loop body examines at all: same direction and entry
time strictly before the exit. -/
def posQualifies (b : BalanceHistoryEntry) (exitTime : Int) (pos : PositionState) : Bool :=
  decide (some pos.direction = b.direction) && decide (pos.entryTime < exitTime)

/-- Entry price within 0.1% relative tolerance of the reported one. -/
def pricePasses (b : BalanceHistoryEntry) (pos : PositionState) : Bool :=
  decide (|pos.entryPrice - b.entryPrice.getD 0| / b.entryPrice.getD 0 < 1 / 1000)

/-- Unit count within 1 of the event's. -/
def unitsPasses (b : BalanceHistoryEntry) (pos : PositionState) : Bool :=
  decide (|pos.units - b.units.getD 0| < 1)

theorem getLast?_cons_orElse (a : α) (l : List α) :
    (a :: l).getLast? = (l.getLast? <|> some a) := by
  cases l with
  | nil => rfl
  | cons x xs =>
    rw [List.getLast?_cons_cons]
    cases hlast : (x :: xs).getLast? with
    | none => simp at hlast
    | some y => rfl

theorem option_orElse_assoc (x y z : Option α) :
    ((x <|> y) <|> z) = (x <|> (y <|> z)) := by
  cases x <;> rfl

theorem findMatchLoop_characterization (b : BalanceHistoryEntry) (exitTime : Int)
    (h : 0 < b.entryPrice.getD 0) (positions : List PositionState)
    (acc : Option PositionState) :
    findMatchLoop b exitTime positions acc =
      ((positions.find? fun p => posQualifies b exitTime p && pricePasses b p) <|>
        (((positions.filter fun p =>
            posQualifies b exitTime p && !pricePasses b p && unitsPasses b p).getLast?) <|>
          acc)) := by
  induction positions generalizing acc with
  | nil => simp [findMatchLoop]
  | cons pos rest ih =>
    have hbp : ¬ b.entryPrice.getD 0 = 0 := by linarith
    simp only [findMatchLoop]
    by_cases hdir : some pos.direction = b.direction
    · rw [if_neg (by simp [hdir])]
      by_cases htime : pos.entryTime < exitTime
      · rw [if_neg (by simp [htime]), if_neg hbp]
        by_cases hprice :
            |pos.entryPrice - b.entryPrice.getD 0| / b.entryPrice.getD 0 < 1 / 1000
        · rw [if_pos hprice,
            List.find?_cons_of_pos _
              (by simp [posQualifies, pricePasses, hdir, htime]; linarith [hprice]),
            Option.some_orElse]
        · rw [if_neg hprice]
          by_cases hunits : |pos.units - b.units.getD 0| < 1
          · rw [if_pos hunits, ih,
              List.find?_cons_of_neg _
                (by simp [posQualifies, pricePasses]; intro _ _; linarith [not_lt.mp hprice]),
              List.filter_cons_of_pos
                (by simp [posQualifies, pricePasses, unitsPasses, hdir, htime, hunits]
                    linarith [not_lt.mp hprice]),
              getLast?_cons_orElse, option_orElse_assoc, Option.some_orElse]
          · rw [if_neg hunits, ih,
              List.find?_cons_of_neg _
                (by simp [posQualifies, pricePasses]; intro _ _; linarith [not_lt.mp hprice]),
              List.filter_cons_of_neg (by simp [unitsPasses, hunits])]
      · rw [if_pos (by simpa using htime), ih,
          List.find?_cons_of_neg _ (by simp [posQualifies, htime]),
          List.filter_cons_of_neg (by simp [posQualifies, htime])]
    · rw [if_pos (by simpa using hdir), ih,
        List.find?_cons_of_neg _ (by simp [posQualifies, hdir]),
        List.filter_cons_of_neg (by simp [posQualifies, hdir])]

/-- C4: with a positive reported entry price, the loop returns the first
candidate (in insertion order) with matching direction, entry time
strictly before the exit, and entry price within 0.1% relative
tolerance; when no candidate passes the price test it falls back to a
candidate with matching direction/time whose unit count is within 1 of
the event's (the last such candidate, since the fallback assignment
keeps overwriting without breaking). -/
theorem c4_candidate_selection (b : BalanceHistoryEntry) (exitTime : Int)
    (positions : List PositionState) (h : 0 < b.entryPrice.getD 0) :
    findMatchingPosition b exitTime positions =
      ((positions.find? fun p => posQualifies b exitTime p && pricePasses b p) <|>
        ((positions.filter fun p =>
            posQualifies b exitTime p && !pricePasses b p && unitsPasses b p).getLast?)) := by
  rw [findMatchingPosition, findMatchLoop_characterization b exitTime h positions none]
  cases positions.find? fun p => posQualifies b exitTime p && pricePasses b p <;> simp

/-! ## C2: unmatched balance events -/

theorem processBalance_fallback (sortedOrders : List OrderLogEntry) (m : PosMap)
    (b : BalanceHistoryEntry)
    (hq : balanceQualifies b = true)
    (hm : findMatchingPosition b b.time (getPos m (fullSymbolOf b)) = none)
    (he : findEntryOrder sortedOrders (fullSymbolOf b) (b.entryPrice.getD 0) b.time = none) :
    ∃ t, (processBalance sortedOrders m b).2 = some t ∧
      t.stopLoss = none ∧ t.takeProfit = none ∧
      t.entryTime = b.time - 7200000 ∧ t.status = .closed := by
  simp only [processBalance, hq, hm, he, if_true]
  exact ⟨_, rfl, rfl, rfl, by norm_num, rfl⟩

/-- C2: a qualifying balance event (symbol, direction, entry and exit
price all present) with no matching position candidate and no matching
execute order still yields exactly one closed trade, with null stop-loss
and take-profit and entry time set to the exit time minus 2 hours. -/
theorem c2_unmatched_event_fallback (b : BalanceHistoryEntry)
    (orders : List OrderLogEntry)
    (hq : balanceQualifies b = true)
    (hm : findMatchingPosition b b.time
        (getPos (buildPositions (sortOrdersAsc orders)) (fullSymbolOf b)) = none)
    (he : findEntryOrder (sortOrdersAsc orders) (fullSymbolOf b)
        (b.entryPrice.getD 0) b.time = none) :
    (mergeTradeData [b] orders).length = 1 ∧
    ∀ t ∈ mergeTradeData [b] orders,
      t.stopLoss = none ∧ t.takeProfit = none ∧
      t.entryTime = b.time - 7200000 ∧ t.status = .closed := by
  obtain ⟨t0, ht0, h1, h2, h3, h4⟩ :=
    processBalance_fallback (sortOrdersAsc orders)
      (buildPositions (sortOrdersAsc orders)) b hq hm he
  have hmerge : mergeTradeData [b] orders = [t0] := by
    simp only [mergeTradeData]
    have hb : sortBalanceAsc [b] = [b] := rfl
    rw [hb, List.foldl_cons, List.foldl_nil]
    simp only [mergeStep]
    rcases hp : processBalance (sortOrdersAsc orders)
        (buildPositions (sortOrdersAsc orders)) b with ⟨m2, topt⟩
    rw [hp] at ht0
    simp only at ht0
    rw [ht0]
    rfl
  rw [hmerge]
  refine ⟨rfl, ?_⟩
  intro t ht
  rw [List.mem_singleton] at ht
  subst ht
  exact ⟨h1, h2, h3, h4⟩

/-- A closed-position balance event with no order log at all. -/
def c2Balance : BalanceHistoryEntry :=
  { time := 1700000000000, balanceBefore := 1000, balanceAfter := 1100, pnl := 100,
    currency := "USD", action := "", direction := some .long,
    symbol := some "EURUSD", exchange := some "OANDA",
    exitPrice := some 1.1, entryPrice := some 1, units := some 1000 }

/-- The trade C2's fallback path emits for `c2Balance`. -/
def c2TradeW : Trade :=
  { symbol := "EURUSD", direction := .long, entryPrice := 1,
    exitPrice := some 1.1, units := 1000,
    entryTime := 1699992800000, exitTime := some 1700000000000,
    stopLoss := none, takeProfit := none,
    pnl := some 100, pnlPercent := some 10,
    status := .closed, currency := none, tags := ["OANDA", "Forex"] }

theorem c2_unmatched_event_fallback_witness :
    c2TradeW.stopLoss = none ∧ c2TradeW.takeProfit = none ∧
    c2TradeW.entryTime = c2Balance.time - 7200000 ∧ c2TradeW.status = .closed :=
  (c2_unmatched_event_fallback c2Balance []
      (by decide!)
      (by decide!)
      (by decide!)).2
    c2TradeW (by decide!)

/-! ## C3: SL/TP recovery scenario -/

/-- The balance line `Close short position for symbol OANDA:EURUSD at
price 1.19018 for 2941176 units. Position AVG Price was 1.191580, ...`
as parsed by `parseBalanceHistoryCSV` (exit at epoch 2000000 ms). -/
def c3BalanceEntry : BalanceHistoryEntry :=
  { time := 2000000, balanceBefore := 133009.73, balanceAfter := 137127.38,
    pnl := 4117.65, currency := "USD",
    action := "Close short position for symbol OANDA:EURUSD at price 1.19018 for 2941176 units. Position AVG Price was 1.191580",
    direction := some .short, symbol := some "EURUSD", exchange := some "OANDA",
    exitPrice := some 1.19018, entryPrice := some 1.19158, units := some 2941176 }

/-- The entry call of the order log, 1000 seconds before the balance
line. -/
def c3CallLine : OrderLogEntry :=
  parseOrderLine 1000000
    "Call to place market order to sell 2941176 units of symbol OANDA:EURUSD with SL 1.19278 and TP 1.18972"

/-- Its execution 3 seconds later (within the 5-second window). -/
def c3ExecLine : OrderLogEntry :=
  parseOrderLine 1003000
    "Order 312 for symbol OANDA:EURUSD has been executed at price 1.19158 for 2941176 units"

/-- C3: with the matching entry call and its execution in the order log,
`mergeTradeData` emits the closed short EURUSD trade with
stopLoss = 1.19278 and takeProfit = 1.18972. -/
theorem c3_merge_recovers_sl_tp :
    (mergeTradeData [c3BalanceEntry] [c3CallLine, c3ExecLine]).map
        (fun t => (t.symbol, t.direction, t.status, t.stopLoss, t.takeProfit)) =
      [("EURUSD", Direction.short, TradeStatus.closed,
        some (1.19278 : ℚ), some (1.18972 : ℚ))] :=
  by decide!

/-! ## C9: the closed-trade invariant on the import paths -/

theorem processBalance_trade_fields (sortedOrders : List OrderLogEntry) (m : PosMap)
    (b : BalanceHistoryEntry) (t : Trade)
    (h : (processBalance sortedOrders m b).2 = some t) :
    t.status = .closed ∧ t.exitPrice.isSome ∧ t.exitTime.isSome ∧ t.pnl.isSome := by
  simp only [processBalance] at h
  by_cases hq : balanceQualifies b = true
  · rw [if_pos hq] at h
    simp only [Option.some.injEq] at h
    subst h
    simp
  · rw [if_neg hq] at h
    exact Option.noConfusion h

theorem mergeFold_invariant (sortedOrders : List OrderLogEntry)
    (l : List BalanceHistoryEntry) (st : PosMap × List Trade)
    (hst : ∀ u ∈ st.2,
      u.status = .closed ∧ u.exitPrice.isSome ∧ u.exitTime.isSome ∧ u.pnl.isSome) :
    ∀ u ∈ (l.foldl (mergeStep sortedOrders) st).2,
      u.status = .closed ∧ u.exitPrice.isSome ∧ u.exitTime.isSome ∧ u.pnl.isSome := by
  induction l generalizing st with
  | nil => simpa using hst
  | cons b rest ih =>
    rw [List.foldl_cons]
    refine ih (mergeStep sortedOrders st b) ?_
    intro u hu
    unfold mergeStep at hu
    rcases hp : processBalance sortedOrders st.1 b with ⟨m2, topt⟩
    rw [hp] at hu
    cases topt with
    | none => exact hst u hu
    | some t0 =>
      simp only [List.mem_append, List.mem_singleton] at hu
      rcases hu with hu | rfl
      · exact hst u hu
      · exact processBalance_trade_fields sortedOrders st.1 b u (by rw [hp])

theorem mergeTradeData_invariant (bs : List BalanceHistoryEntry)
    (os : List OrderLogEntry) (t : Trade) (ht : t ∈ mergeTradeData bs os) :
    t.status = .closed ∧ t.exitPrice.isSome ∧ t.exitTime.isSome ∧ t.pnl.isSome := by
  simp only [mergeTradeData, mem_insertionSortBy] at ht
  exact mergeFold_invariant (sortOrdersAsc os) (sortBalanceAsc bs)
    (buildPositions (sortOrdersAsc os), []) (by simp) t ht

theorem parseBalanceHistoryTrades_invariant (es : List BalanceHistoryEntry)
    (t : Trade) (ht : t ∈ parseBalanceHistoryTrades es) :
    t.status = .closed ∧ t.exitPrice.isSome ∧ t.exitTime.isSome ∧ t.pnl.isSome := by
  simp only [parseBalanceHistoryTrades, List.mem_filterMap] at ht
  obtain ⟨e, _, he⟩ := ht
  split_ifs at he
  all_goals first
    | exact Option.noConfusion he
    | (cases he; simp)

/-- C9 amended: every trade emitted by `mergeTradeData` or
`parseBalanceHistoryTrades` satisfies the full closed-trade invariant
(status closed, non-null exitPrice, exitTime and pnl).  Every trade
emitted by `parseMT5Report` has status closed and non-null exitPrice and
pnl, and comes from some scanned row; a row's trade has non-null
exitTime exactly when that row's exit-time cell (index 9) is non-empty
after trimming — in particular exitTime is null when the cell is empty
(see the counterexample). -/
theorem c9_amended_import_invariant :
    (∀ (bs : List BalanceHistoryEntry) (os : List OrderLogEntry),
      ∀ t ∈ mergeTradeData bs os,
        t.status = .closed ∧ t.exitPrice.isSome ∧ t.exitTime.isSome ∧ t.pnl.isSome) ∧
    (∀ es : List BalanceHistoryEntry,
      ∀ t ∈ parseBalanceHistoryTrades es,
        t.status = .closed ∧ t.exitPrice.isSome ∧ t.exitTime.isSome ∧ t.pnl.isSome) ∧
    (∀ rows : List Mt5Row,
      ∀ t ∈ parseMT5Rows rows,
        (t.status = .closed ∧ t.pnl.isSome ∧ t.exitPrice.isSome) ∧
        ∃ r ∈ rows, rowToTrade r = some t) ∧
    (∀ (r : Mt5Row) (t : Trade), rowToTrade r = some t →
      ((r.cells.getD 9 "").trim ≠ "" → t.exitTime.isSome) ∧
      ((r.cells.getD 9 "").trim = "" → t.exitTime = none)) :=
  ⟨fun bs os t ht => mergeTradeData_invariant bs os t ht,
   fun es t ht => parseBalanceHistoryTrades_invariant es t ht,
   fun rows t ht => parseMT5Rows_invariant rows t ht,
   fun r t h => rowToTrade_exitTime r t h⟩

/-- A qualifying balance event for the C9 witness. -/
def c9Balance : BalanceHistoryEntry :=
  { time := 1600000000000, balanceBefore := 5000, balanceAfter := 5250, pnl := 250,
    currency := "USD", action := "", direction := some .short,
    symbol := some "GBPUSD", exchange := some "OANDA",
    exitPrice := some 2.5, entryPrice := some 2, units := some 100 }

/-- The trade `mergeTradeData [c9Balance] []` emits. -/
def c9TradeW : Trade :=
  { symbol := "GBPUSD", direction := .short, entryPrice := 2,
    exitPrice := some 2.5, units := 100,
    entryTime := 1599992800000, exitTime := some 1600000000000,
    stopLoss := none, takeProfit := none,
    pnl := some 250, pnlPercent := some 125,
    status := .closed, currency := none, tags := ["OANDA", "Forex"] }

/-- The trade `rowToTrade` yields for `mt5BuyRow` (pnl = 50 − 2 − 1;
times are the epoch values of the two MT5 timestamps). -/
def c9Mt5Trade : Trade :=
  { symbol := "EURUSD", direction := .long, entryPrice := 1.1,
    exitPrice := some 1.15, units := 1,
    entryTime := 1771083243000, exitTime := some 1771084800000,
    stopLoss := some 1, takeProfit := some 1.2,
    pnl := some 47, pnlPercent := none,
    status := .closed, currency := none, tags := ["MT5", "Imported"] }

theorem c9_amended_import_invariant_witness :
    (c9TradeW.status = .closed ∧ c9TradeW.exitPrice.isSome ∧
      c9TradeW.exitTime.isSome ∧ c9TradeW.pnl.isSome) ∧
    (c9Mt5Trade.status = .closed ∧ c9Mt5Trade.pnl.isSome ∧
      c9Mt5Trade.exitPrice.isSome) ∧
    c9Mt5Trade.exitTime.isSome :=
  ⟨c9_amended_import_invariant.1 [c9Balance] [] c9TradeW (by decide!),
   (c9_amended_import_invariant.2.2.1 [mt5BuyRow] c9Mt5Trade (by decide!)).1,
   (c9_amended_import_invariant.2.2.2 mt5BuyRow c9Mt5Trade (by decide!)).1
     (by decide!)⟩

/-- A balance event with reported entry price 100 for the C4 witness. -/
def c4Balance : BalanceHistoryEntry :=
  { time := 10000, balanceBefore := 0, balanceAfter := 0, pnl := 0,
    currency := "USD", action := "", direction := some .long,
    symbol := some "EURUSD", exchange := some "OANDA",
    exitPrice := some 1.2, entryPrice := some 100, units := some 50 }

/-- Candidate matching only by unit count. -/
def c4PosUnits : PositionState :=
  { symbol := "OANDA:EURUSD", entryTime := 1000, entryPrice := 200, units := 50,
    direction := .long, stopLoss := none, takeProfit := none, slTpHistory := [] }

/-- Candidate matching by price. -/
def c4PosPrice : PositionState :=
  { symbol := "OANDA:EURUSD", entryTime := 2000, entryPrice := 100, units := 7,
    direction := .long, stopLoss := none, takeProfit := none, slTpHistory := [] }

theorem c4_candidate_selection_witness :
    findMatchingPosition c4Balance 10000 [c4PosUnits, c4PosPrice] =
      (([c4PosUnits, c4PosPrice].find? fun p =>
          posQualifies c4Balance 10000 p && pricePasses c4Balance p) <|>
        (([c4PosUnits, c4PosPrice].filter fun p =>
            posQualifies c4Balance 10000 p && !pricePasses c4Balance p &&
              unitsPasses c4Balance p).getLast?)) ∧
    findMatchingPosition c4Balance 10000 [c4PosUnits, c4PosPrice] = some c4PosPrice :=
  ⟨c4_candidate_selection c4Balance 10000 [c4PosUnits, c4PosPrice]
      (by decide!),
   by decide!⟩
